import Mathlib

/-!
Verification of the freedom outbound configuration builder
(`infra/conf/freedom.go`): a shallow embedding of `FreedomConfig.Build`,
`ParseNoise` and the range/encoding helpers they use, together with theorems
about the builder's parsing, validation and mutation behaviour.

Strings are modelled as lists of characters (`Str`); Go's `strings.Split`,
`strconv.ParseUint`, `strings.TrimSpace`, `strings.ToLower` (restricted to
ASCII case mapping, which is all the keyword comparisons need), `hex` and
`base64` decoders are embedded below.  Machine integers (`uint64`, `uint32`)
are modelled as `Nat` with explicit range checks where the code performs them.
-/

abbrev Str := List Char

/-- ASCII lower-casing, the restriction of Go `strings.ToLower` used by the
keyword comparisons in `Build` (all compared keywords are ASCII). -/
def asciiLower (s : Str) : Str :=
  s.map (fun c => if 'A' ≤ c ∧ c ≤ 'Z' then Char.ofNat (c.toNat + 32) else c)

/-- ASCII whitespace predicate, the restriction of Go `unicode.IsSpace` used
by `strings.TrimSpace`. -/
def isSpaceChar (c : Char) : Bool :=
  c = ' ' ∨ c = '\t' ∨ c = '\n' ∨ c = '\x0b' ∨ c = '\x0c' ∨ c = '\r'

/-- Go `strings.TrimSpace`: drop leading and trailing whitespace. -/
def trimSpace (s : Str) : Str :=
  ((s.dropWhile isSpaceChar).reverse.dropWhile isSpaceChar).reverse

/-- Go `strings.Split` with a one-character separator: always returns at
least one (possibly empty) token; `splitOn [] sep = [[]]`. -/
def splitOn : Str → Char → List Str
  | [], _ => [[]]
  | c :: rest, sep =>
    match splitOn rest sep with
    | [] => [[c]]
    | h :: t => if c = sep then [] :: h :: t else (c :: h) :: t

/-- Index of the last occurrence of a character, if any. -/
def lastIndexOf : Str → Char → Option Nat
  | [], _ => none
  | c :: rest, t =>
    match lastIndexOf rest t with
    | some i => some (i + 1)
    | none => if c = t then some 0 else none

/-- Decimal digit value of a character. -/
def digitVal (c : Char) : Option Nat :=
  if '0' ≤ c ∧ c ≤ '9' then some (c.toNat - '0'.toNat) else none

/-- Accumulate decimal digits; fails on the first non-digit. -/
def parseDigits : Str → Nat → Option Nat
  | [], acc => some acc
  | c :: rest, acc =>
    match digitVal c with
    | none => none
    | some d => parseDigits rest (acc * 10 + d)

/-- Go `strconv.ParseUint(s, 10, 64)`: non-empty all-digit string whose value
fits in 64 bits; no sign, no separators. -/
def parseUint64 (s : Str) : Option Nat :=
  if s = [] then none
  else
    match parseDigits s 0 with
    | none => none
    | some n => if n < 2 ^ 64 then some n else none

/-- Hexadecimal digit value of a character. -/
def hexVal (c : Char) : Option Nat :=
  if '0' ≤ c ∧ c ≤ '9' then some (c.toNat - '0'.toNat)
  else if 'a' ≤ c ∧ c ≤ 'f' then some (c.toNat - 'a'.toNat + 10)
  else if 'A' ≤ c ∧ c ≤ 'F' then some (c.toNat - 'A'.toNat + 10)
  else none

/-- Go `hex.DecodeString`: pairs of hex digits; odd length or an invalid
character fails. -/
def hexDecode : Str → Option (List Nat)
  | [] => some []
  | [_] => none
  | a :: b :: rest =>
    match hexVal a, hexVal b, hexDecode rest with
    | some x, some y, some r => some ((x * 16 + y) :: r)
    | _, _, _ => none

/-- Value of a character in the URL-safe base64 alphabet. -/
def b64UrlVal (c : Char) : Option Nat :=
  if 'A' ≤ c ∧ c ≤ 'Z' then some (c.toNat - 'A'.toNat)
  else if 'a' ≤ c ∧ c ≤ 'z' then some (c.toNat - 'a'.toNat + 26)
  else if '0' ≤ c ∧ c ≤ '9' then some (c.toNat - '0'.toNat + 52)
  else if c = '-' then some 62
  else if c = '_' then some 63
  else none

/-- Decode base64 sextet values in 4-value quanta into bytes; a trailing quantum
of 2 or 3 values yields 1 or 2 bytes (extra low bits discarded, as the
non-strict Go decoder does); a trailing quantum of 1 value is invalid. -/
def b64Groups : List Nat → Option (List Nat)
  | [] => some []
  | [_] => none
  | [a, b] => some [a * 4 + b / 16]
  | [a, b, c] => some [a * 4 + b / 16, b % 16 * 16 + c / 4]
  | a :: b :: c :: d :: rest =>
    match b64Groups rest with
    | none => none
    | some r => some ((a * 4 + b / 16) :: (b % 16 * 16 + c / 4) :: (c % 4 * 64 + d) :: r)

/-- Go `base64.RawURLEncoding.DecodeString`: URL-safe alphabet, no padding;
newline characters are ignored as in `encoding/base64`. -/
def rawURLDecode (s : Str) : Option (List Nat) :=
  match (s.filter (fun c => ¬(c = '\r' ∨ c = '\n'))).mapM b64UrlVal with
  | none => none
  | some vals => b64Groups vals

/-- Go `strings.NewReplacer("+", "-", "/", "_", "=", "").Replace`: rewrite the
standard base64 alphabet to the URL-safe one and strip padding. -/
def b64Replace (s : Str) : Str :=
  s.filterMap (fun c =>
    if c = '+' then some '-'
    else if c = '/' then some '_'
    else if c = '=' then none
    else some c)

/-- Go `uint64(x)` applied to a (possibly negative) `int32` value. -/
def u64ofInt32 (i : Int) : Nat :=
  (i % (2 : Int) ^ 64).toNat

/-- Boolean success test for `Except`. -/
def exOk {α : Type} : Except String α → Bool
  | .ok _ => true
  | .error _ => false

/-! ## Raw configuration data model (`infra/conf/freedom.go`) -/

/-- `conf.Int32Range` (fields `From`, `To` of Go type `int32`). -/
structure Int32Range where
  From : Int
  To : Int
deriving DecidableEq, Repr

/-- `conf.Noise`; the Go field `Type` is written `Type'` because `Type` is a
Lean keyword. -/
structure Noise where
  Type' : Str
  Packet : Str
  Delay : Option Int32Range
  Count : Option Int32Range
deriving DecidableEq, Repr

abbrev NoiseCfg := Noise

/-- `conf.Fragment`. -/
structure Fragment where
  Packets : Str
  Length : Str
  Interval : Str
  Host1_header : Str
  Host1_domain : Str
  Host2_header : Str
  Host2_domain : Str
deriving DecidableEq, Repr

abbrev FragmentCfg := Fragment

/-- `conf.FreedomConfig`. -/
structure FreedomConfig where
  DomainStrategy : Str
  Redirect : Str
  UserLevel : Nat
  Fragment : Option FragmentCfg
  Noise : Option NoiseCfg
  Noises : List NoiseCfg
  NoiseKeepAlive : Nat
  ProxyProtocol : Nat
deriving DecidableEq, Repr

/-! ## Built plan data model (`freedom.Config` protobuf message) -/

/-- `freedom.Config_DomainStrategy` enumeration. -/
inductive DomainStrategyE where
  | AS_IS | USE_IP | USE_IP4 | USE_IP6 | USE_IP46 | USE_IP64
  | FORCE_IP | FORCE_IP4 | FORCE_IP6 | FORCE_IP46 | FORCE_IP64
deriving DecidableEq, Repr

/-- `freedom.Fragment` (proto) with the fields `Build` assigns. -/
structure FFragment where
  PacketsFrom : Nat
  PacketsTo : Nat
  LengthMin : Nat
  LengthMax : Nat
  IntervalMin : Nat
  IntervalMax : Nat
  FakeHost : Bool
  Host1Header : Str
  Host1Domain : Str
  Host2Header : Str
  Host2Domain : Str
deriving DecidableEq, Repr

/-- `freedom.Noise` (proto); `Packet` is a byte list. -/
structure FNoise where
  LengthMin : Nat
  LengthMax : Nat
  Packet : List Nat
  DelayMin : Nat
  DelayMax : Nat
  CountMin : Nat
  CountMax : Nat
deriving DecidableEq, Repr

/-- `protocol.ServerEndpoint` with the fields `Build` assigns; the address is
the redirect host when one is present. -/
structure ServerEndpoint where
  Port : Nat
  Address : Option Str
deriving DecidableEq, Repr

/-- `freedom.DestinationOverride`. -/
structure DestinationOverride where
  Server : ServerEndpoint
deriving DecidableEq, Repr

/-- `freedom.Config` (proto) with the fields `Build` assigns. -/
structure FConfig where
  DomainStrategy : DomainStrategyE
  Fragment : Option FFragment
  Noises : List FNoise
  NoiseKeepAlive : Nat
  UserLevel : Nat
  DestinationOverride : Option DestinationOverride
  ProxyProtocol : Nat
deriving DecidableEq, Repr

/-! ## The builder (`FreedomConfig.Build`, split by the source's blocks) -/

/-- The `switch strings.ToLower(c.DomainStrategy)` at the top of `Build`. -/
def parseDomainStrategy (s : Str) : Except String DomainStrategyE :=
  let l := asciiLower s
  if l = ("asis").toList ∨ l = [] then .ok .AS_IS
  else if l = ("useip").toList then .ok .USE_IP
  else if l = ("useipv4").toList then .ok .USE_IP4
  else if l = ("useipv6").toList then .ok .USE_IP6
  else if l = ("useipv4v6").toList then .ok .USE_IP46
  else if l = ("useipv6v4").toList then .ok .USE_IP64
  else if l = ("forceip").toList then .ok .FORCE_IP
  else if l = ("forceipv4").toList then .ok .FORCE_IP4
  else if l = ("forceipv6").toList then .ok .FORCE_IP6
  else if l = ("forceipv4v6").toList then .ok .FORCE_IP46
  else if l = ("forceipv6v4").toList then .ok .FORCE_IP64
  else .error ("unsupported domain strategy: " ++ String.mk s)

/-- The shared shape of the three range-parsing blocks in `Build` (packets
default branch, length, interval): split on `"-"`; with exactly two tokens
parse both, otherwise parse only the first token and duplicate it; then swap
so min ≤ max.  `errMin`/`errMax` are the per-field messages
(`"Invalid PacketsFrom"`, `"Invalid LengthMin"`, ...). -/
def parseMinMax (s : Str) (errMin errMax : String) : Except String (Nat × Nat) :=
  match splitOn s '-' with
  | [a, b] =>
    match parseUint64 a, parseUint64 b with
    | none, _ => .error errMin
    | some _, none => .error errMax
    | some x, some y => .ok (if y < x then (y, x) else (x, y))
  | l =>
    match parseUint64 (l.headD []) with
    | none => .error errMin
    | some x => .ok (x, x)

/-- The `switch strings.ToLower(c.Fragment.Packets)` block of `Build`;
returns `(PacketsFrom, PacketsTo, FakeHost)`. -/
def buildPackets (s : Str) : Except String (Nat × Nat × Bool) :=
  let low := asciiLower s
  if low = ("tlshello").toList then .ok (0, 1, false)
  else if low = ("fakehost").toList then .ok (1, 1, true)
  else if low = [] then .ok (0, 0, false)
  else
    match parseMinMax s ("Invalid PacketsFrom") ("Invalid PacketsTo") with
    | .error e => .error e
    | .ok (pf, pt) =>
      if pf = 0 then .error ("PacketsFrom can't be 0") else .ok (pf, pt, false)

/-- The length block of `Build`. -/
def buildLength (s : Str) : Except String (Nat × Nat) :=
  if s = [] then .error ("Length can't be empty")
  else
    match parseMinMax s ("Invalid LengthMin") ("Invalid LengthMax") with
    | .error e => .error e
    | .ok (mn, mx) =>
      if mn = 0 then .error ("LengthMin can't be 0") else .ok (mn, mx)

/-- The interval block of `Build` (zero is allowed). -/
def buildInterval (s : Str) : Except String (Nat × Nat) :=
  if s = [] then .error ("Interval can't be empty")
  else parseMinMax s ("Invalid IntervalMin") ("Invalid IntervalMax")

/-- The fragment block of `Build` (`if c.Fragment != nil`): packets, length,
interval, then the per-field host header/domain defaults. -/
def buildFragment (f : FragmentCfg) : Except String FFragment :=
  match buildPackets f.Packets with
  | .error e => .error e
  | .ok (pf, pt, fh) =>
    match buildLength f.Length with
    | .error e => .error e
    | .ok (lmn, lmx) =>
      match buildInterval f.Interval with
      | .error e => .error e
      | .ok (imn, imx) =>
        .ok { PacketsFrom := pf, PacketsTo := pt,
              LengthMin := lmn, LengthMax := lmx,
              IntervalMin := imn, IntervalMax := imx,
              FakeHost := fh,
              Host1Header := if f.Host1_header = [] then ("Host : ").toList else f.Host1_header,
              Host1Domain := if f.Host1_domain = [] then ("cloudflare.com").toList else f.Host1_domain,
              Host2Header := if f.Host2_header = [] then ("Host:   ").toList else f.Host2_header,
              Host2Domain := if f.Host2_domain = [] then ("cloudflare.com").toList else f.Host2_domain }

/-- Lift `buildFragment` over the optional fragment descriptor. -/
def buildFragmentOpt : Option FragmentCfg → Except String (Option FFragment)
  | none => .ok none
  | some f =>
    match buildFragment f with
    | .error e => .error e
    | .ok ff => .ok (some ff)

/-- Modelled from the spec: `ParseRangeString` (defined outside the provided
sources) is "the Range Parser" of the spec: it parses `"N"` or `"N-M"`,
swapping reversed bounds so min ≤ max, and fails on malformed input. -/
def ParseRangeString (s : Str) : Except String (Nat × Nat) :=
  parseMinMax s ("invalid range") ("invalid range")

/-- `conf.ParseNoise`: returns the (mutated) input noise — its `Packet` field
is overwritten with its trimmed value through the pointer — together with the
built `freedom.Noise` or an error.  The `str` branch's Go `[]byte(s)`
conversion is modelled as the characters' code points, which coincides with
UTF-8 bytes on the ASCII strings at issue. -/
def ParseNoise (noise : NoiseCfg) : NoiseCfg × Except String FNoise :=
  let noise := { noise with Packet := trimSpace noise.Packet }
  let built : Except String FNoise :=
    if noise.Type' = ("rand").toList then
      match ParseRangeString noise.Packet with
      | .error _ => .error ("invalid value for rand Length")
      | .ok (mn, mx) =>
        if mn = 0 then .error ("rand lengthMin or lengthMax cannot be 0")
        else .ok { LengthMin := mn, LengthMax := mx, Packet := [],
                   DelayMin := (match noise.Delay with | none => 0 | some d => u64ofInt32 d.From),
                   DelayMax := (match noise.Delay with | none => 0 | some d => u64ofInt32 d.To),
                   CountMin := (match noise.Count with | none => 0 | some d => u64ofInt32 d.From),
                   CountMax := (match noise.Count with | none => 0 | some d => u64ofInt32 d.To) }
    else if noise.Type' = ("str").toList then
      .ok { LengthMin := 0, LengthMax := 0, Packet := noise.Packet.map Char.toNat,
            DelayMin := (match noise.Delay with | none => 0 | some d => u64ofInt32 d.From),
            DelayMax := (match noise.Delay with | none => 0 | some d => u64ofInt32 d.To),
            CountMin := (match noise.Count with | none => 0 | some d => u64ofInt32 d.From),
            CountMax := (match noise.Count with | none => 0 | some d => u64ofInt32 d.To) }
    else if noise.Type' = ("hex").toList then
      match hexDecode noise.Packet with
      | none => .error ("Invalid hex string")
      | some bytes =>
        .ok { LengthMin := 0, LengthMax := 0, Packet := bytes,
              DelayMin := (match noise.Delay with | none => 0 | some d => u64ofInt32 d.From),
              DelayMax := (match noise.Delay with | none => 0 | some d => u64ofInt32 d.To),
              CountMin := (match noise.Count with | none => 0 | some d => u64ofInt32 d.From),
              CountMax := (match noise.Count with | none => 0 | some d => u64ofInt32 d.To) }
    else if noise.Type' = ("base64").toList then
      match rawURLDecode (b64Replace noise.Packet) with
      | none => .error ("Invalid base64 string")
      | some bytes =>
        .ok { LengthMin := 0, LengthMax := 0, Packet := bytes,
              DelayMin := (match noise.Delay with | none => 0 | some d => u64ofInt32 d.From),
              DelayMax := (match noise.Delay with | none => 0 | some d => u64ofInt32 d.To),
              CountMin := (match noise.Count with | none => 0 | some d => u64ofInt32 d.From),
              CountMax := (match noise.Count with | none => 0 | some d => u64ofInt32 d.To) }
    else .error ("Invalid packet, only rand/str/hex/base64 are supported")
  (noise, built)

/-- The `for _, n := range c.Noises` loop of `Build`: parse each entry in
order, stopping at the first error; the first component is the noises list
after the in-place `Packet` mutation `ParseNoise` performs on each entry it
was called on (entries after a failing one are untouched). -/
def parseNoises : List NoiseCfg → List NoiseCfg × Except String (List FNoise)
  | [] => ([], .ok [])
  | n :: rest =>
    match (ParseNoise n).2 with
    | .error e => ((ParseNoise n).1 :: rest, .error e)
    | .ok fn =>
      match parseNoises rest with
      | (rest', .error e) => ((ParseNoise n).1 :: rest', .error e)
      | (rest', .ok frest) => ((ParseNoise n).1 :: rest', .ok (fn :: frest))

/-- Modelled from Go stdlib `net.SplitHostPort` semantics: split on the last
colon; no colon at all is a "missing port" error; an unbracketed host
containing a colon is a "too many colons" error; a `[host]:port` form strips
the brackets.  Error strings follow `net.AddrError.Error()`
(`"address <addr>: <why>"`). -/
def splitHostPort (s : Str) : Except String (Str × Str) :=
  match lastIndexOf s ':' with
  | none => .error ("address " ++ String.mk s ++ ": missing port in address")
  | some i =>
    let host := s.take i
    let port := s.drop (i + 1)
    if host.head? = some '[' then
      if host.getLast? = some ']' then
        let inner := (host.drop 1).dropLast
        if inner.contains '[' ∨ inner.contains ']' ∨ port.contains '[' ∨ port.contains ']' then
          .error ("address " ++ String.mk s ++ ": unexpected '[' in address")
        else .ok (inner, port)
      else .error ("address " ++ String.mk s ++ ": missing ']' in address")
    else if host.contains ':' then
      .error ("address " ++ String.mk s ++ ": too many colons in address")
    else if host.contains '[' ∨ host.contains ']' ∨ port.contains '[' ∨ port.contains ']' then
      .error ("address " ++ String.mk s ++ ": unexpected '[' in address")
    else .ok (host, port)

/-- Modelled from the spec: `v2net.PortFromString` (defined outside the
provided sources); the "port must parse as a valid 16-bit port number". -/
def PortFromString (s : Str) : Except String Nat :=
  match parseUint64 s with
  | none => .error ("invalid port range: " ++ String.mk s)
  | some n => if n ≤ 65535 then .ok n else .error ("invalid port range: " ++ String.mk s)

/-- Modelled from the spec: `v2net.ParseAddress`/`v2net.NewIPOrDomain`
(defined outside the provided sources) wrap the redirect host string as an
address; modelled as the raw host string. -/
def NewIPOrDomain (h : Str) : Str := h

/-- The redirect block of `Build` (`if len(c.Redirect) > 0`). -/
def buildRedirect (s : Str) : Except String (Option DestinationOverride) :=
  if s = [] then .ok none
  else
    match splitHostPort s with
    | .error e => .error ("invalid redirect address: " ++ String.mk s ++ ": " ++ e)
    | .ok (host, portStr) =>
      match PortFromString portStr with
      | .error e => .error ("invalid redirect port: " ++ String.mk s ++ ": " ++ e)
      | .ok port =>
        .ok (some { Server := { Port := port,
                                Address := if host = [] then none else some (NewIPOrDomain host) } })

/-- `FreedomConfig.Build`.  The first component is the raw configuration after
the call (the loop over `c.Noises` mutates each processed entry's `Packet`
field in place through its pointer); the second is the built plan or the first
error, in the source's evaluation order: domain strategy, fragment block,
deprecated singular noise check, noises loop, redirect, proxy protocol. -/
def Build (c : FreedomConfig) : FreedomConfig × Except String FConfig :=
  match parseDomainStrategy c.DomainStrategy with
  | .error e => (c, .error e)
  | .ok ds =>
    match buildFragmentOpt c.Fragment with
    | .error e => (c, .error e)
    | .ok frag =>
      match c.Noise with
      | some _ => (c, .error ("The noise field has been removed, use noises instead."))
      | none =>
        match parseNoises c.Noises with
        | (noises', .error e) => ({ c with Noises := noises' }, .error e)
        | (noises', .ok fns) =>
          match buildRedirect c.Redirect with
          | .error e => ({ c with Noises := noises' }, .error e)
          | .ok dest =>
            ({ c with Noises := noises' },
             .ok { DomainStrategy := ds,
                   Fragment := frag,
                   Noises := fns,
                   NoiseKeepAlive := c.NoiseKeepAlive,
                   UserLevel := c.UserLevel,
                   DestinationOverride := dest,
                   ProxyProtocol := if 0 < c.ProxyProtocol ∧ c.ProxyProtocol ≤ 2 then c.ProxyProtocol else 0 })

/-! ## Concrete configurations used in the theorems -/

/-- A minimal raw configuration: defaults everywhere. -/
def baseCfg : FreedomConfig :=
  { DomainStrategy := [], Redirect := [], UserLevel := 0, Fragment := none,
    Noise := none, Noises := [], NoiseKeepAlive := 0, ProxyProtocol := 0 }

/-- A fragment descriptor with the given packets/length/interval strings and
empty host header fields. -/
def mkFrag (p l i : Str) : FragmentCfg :=
  { Packets := p, Length := l, Interval := i,
    Host1_header := [], Host1_domain := [], Host2_header := [], Host2_domain := [] }

/-- The raw configuration of the `tlshello` mode witness. -/
def cfgTLS : FreedomConfig :=
  { baseCfg with Fragment := some (mkFrag (("tlshello").toList) (("10").toList) (("0").toList)) }

/-- The fragment plan `Build` produces for `cfgTLS`. -/
def ffTLS : FFragment :=
  { PacketsFrom := 0, PacketsTo := 1, LengthMin := 10, LengthMax := 10,
    IntervalMin := 0, IntervalMax := 0, FakeHost := false,
    Host1Header := ("Host : ").toList, Host1Domain := ("cloudflare.com").toList,
    Host2Header := ("Host:   ").toList, Host2Domain := ("cloudflare.com").toList }

/-- The whole plan `Build` produces for `cfgTLS`. -/
def outTLS : FConfig :=
  { DomainStrategy := .AS_IS, Fragment := some ffTLS, Noises := [], NoiseKeepAlive := 0,
    UserLevel := 0, DestinationOverride := none, ProxyProtocol := 0 }

/-! ## Helper lemmas -/

theorem exOk_eq_true_iff {α : Type} (e : Except String α) : exOk e = true ↔ ∃ a, e = .ok a := by
  cases e <;> simp [exOk]

theorem Build_snd_ok (c : FreedomConfig) (cfg : FConfig) (h : (Build c).2 = .ok cfg) :
    parseDomainStrategy c.DomainStrategy = .ok cfg.DomainStrategy ∧
    buildFragmentOpt c.Fragment = .ok cfg.Fragment ∧
    c.Noise = none ∧
    (parseNoises c.Noises).2 = .ok cfg.Noises ∧
    buildRedirect c.Redirect = .ok cfg.DestinationOverride ∧
    cfg.NoiseKeepAlive = c.NoiseKeepAlive ∧
    cfg.UserLevel = c.UserLevel ∧
    cfg.ProxyProtocol = (if 0 < c.ProxyProtocol ∧ c.ProxyProtocol ≤ 2 then c.ProxyProtocol else 0) := by
  unfold Build at h
  cases hds : parseDomainStrategy c.DomainStrategy with
  | error e => rw [hds] at h; simp at h
  | ok ds =>
  rw [hds] at h
  cases hfr : buildFragmentOpt c.Fragment with
  | error e => rw [hfr] at h; simp at h
  | ok frag =>
  rw [hfr] at h
  cases hn : c.Noise with
  | some n => rw [hn] at h; simp at h
  | none =>
  rw [hn] at h
  cases hpn : parseNoises c.Noises with
  | mk noisesA r =>
  rw [hpn] at h
  cases r with
  | error e => simp at h
  | ok fns =>
  cases hre : buildRedirect c.Redirect with
  | error e => rw [hre] at h; simp at h
  | ok dest =>
  rw [hre] at h
  simp only [Except.ok.injEq] at h
  subst h
  exact ⟨rfl, rfl, rfl, rfl, rfl, rfl, rfl, rfl⟩

theorem Build_fst_cases (c : FreedomConfig) :
    (Build c).1 = c ∨ (Build c).1 = { c with Noises := (parseNoises c.Noises).1 } := by
  unfold Build
  cases hds : parseDomainStrategy c.DomainStrategy with
  | error e => left; rfl
  | ok ds =>
  cases hfr : buildFragmentOpt c.Fragment with
  | error e => left; rfl
  | ok frag =>
  cases hn : c.Noise with
  | some n => left; rfl
  | none =>
  cases hpn : parseNoises c.Noises with
  | mk noisesA r =>
  cases r with
  | error e => right; rfl
  | ok fns =>
  cases hre : buildRedirect c.Redirect with
  | error e => right; rfl
  | ok dest => right; rfl

theorem buildFragmentOpt_ok_some (f : FragmentCfg) (o : Option FFragment)
    (h : buildFragmentOpt (some f) = .ok o) :
    ∃ ff, buildFragment f = .ok ff ∧ o = some ff := by
  simp only [buildFragmentOpt] at h
  cases hbf : buildFragment f with
  | error e => rw [hbf] at h; simp at h
  | ok ff => rw [hbf] at h; simp at h; exact ⟨ff, rfl, h.symm⟩

theorem buildFragment_ok_elim (f : FragmentCfg) (ff : FFragment)
    (h : buildFragment f = .ok ff) :
    buildPackets f.Packets = .ok (ff.PacketsFrom, ff.PacketsTo, ff.FakeHost) ∧
    buildLength f.Length = .ok (ff.LengthMin, ff.LengthMax) ∧
    buildInterval f.Interval = .ok (ff.IntervalMin, ff.IntervalMax) := by
  unfold buildFragment at h
  cases hp : buildPackets f.Packets with
  | error e => rw [hp] at h; simp at h
  | ok p =>
  rw [hp] at h
  obtain ⟨pf, pt, fh⟩ := p
  cases hl : buildLength f.Length with
  | error e => rw [hl] at h; simp at h
  | ok l =>
  rw [hl] at h
  obtain ⟨lmn, lmx⟩ := l
  cases hi : buildInterval f.Interval with
  | error e => rw [hi] at h; simp at h
  | ok i =>
  rw [hi] at h
  obtain ⟨imn, imx⟩ := i
  simp only [Except.ok.injEq] at h
  subst h
  exact ⟨rfl, rfl, rfl⟩

theorem buildLength_ok_elim (s : Str) (mn mx : Nat) (h : buildLength s = .ok (mn, mx)) :
    s ≠ [] ∧ parseMinMax s ("Invalid LengthMin") ("Invalid LengthMax") = .ok (mn, mx) ∧ mn ≠ 0 := by
  unfold buildLength at h
  by_cases hs : s = []
  · rw [if_pos hs] at h; simp at h
  · rw [if_neg hs] at h
    cases hp : parseMinMax s ("Invalid LengthMin") ("Invalid LengthMax") with
    | error e => rw [hp] at h; simp at h
    | ok p =>
    rw [hp] at h
    obtain ⟨mnA, mxA⟩ := p
    by_cases h0 : mnA = 0
    · simp only [if_pos h0] at h; simp at h
    · simp only [if_neg h0] at h
      simp only [Except.ok.injEq, Prod.mk.injEq] at h
      obtain ⟨rfl, rfl⟩ := h
      exact ⟨hs, rfl, h0⟩

theorem buildPackets_tlshello (s : Str) (h : asciiLower s = ("tlshello").toList) :
    buildPackets s = .ok (0, 1, false) := by
  simp [buildPackets, h]

theorem buildPackets_fakehost (s : Str) (h : asciiLower s = ("fakehost").toList) :
    buildPackets s = .ok (1, 1, true) := by
  simp [buildPackets, h]

theorem buildPackets_empty (s : Str) (h : asciiLower s = []) :
    buildPackets s = .ok (0, 0, false) := by
  simp [buildPackets, h]

theorem buildPackets_default_ok (s : Str) (pf pt : Nat) (fh : Bool)
    (h1 : asciiLower s ≠ ("tlshello").toList) (h2 : asciiLower s ≠ ("fakehost").toList)
    (h3 : asciiLower s ≠ [])
    (h : buildPackets s = .ok (pf, pt, fh)) :
    parseMinMax s ("Invalid PacketsFrom") ("Invalid PacketsTo") = .ok (pf, pt) ∧ pf ≠ 0 ∧ fh = false := by
  unfold buildPackets at h
  rw [if_neg h1, if_neg h2, if_neg h3] at h
  cases hp : parseMinMax s ("Invalid PacketsFrom") ("Invalid PacketsTo") with
  | error e => rw [hp] at h; simp at h
  | ok p =>
  rw [hp] at h
  obtain ⟨pfA, ptA⟩ := p
  by_cases h0 : pfA = 0
  · simp only [if_pos h0] at h; simp at h
  · simp only [if_neg h0] at h
    simp only [Except.ok.injEq, Prod.mk.injEq] at h
    obtain ⟨rfl, rfl, rfl⟩ := h
    exact ⟨rfl, h0, rfl⟩

theorem ParseNoise_fst (n : NoiseCfg) :
    (ParseNoise n).1 = { n with Packet := trimSpace n.Packet } := rfl

theorem Build_fst_of_ok (c : FreedomConfig) (cfg : FConfig) (h : (Build c).2 = .ok cfg) :
    (Build c).1 = { c with Noises := (parseNoises c.Noises).1 } := by
  unfold Build at h ⊢
  cases hds : parseDomainStrategy c.DomainStrategy with
  | error e => rw [hds] at h; simp at h
  | ok ds =>
  rw [hds] at h
  cases hfr : buildFragmentOpt c.Fragment with
  | error e => rw [hfr] at h; simp at h
  | ok frag =>
  rw [hfr] at h
  cases hn : c.Noise with
  | some n => rw [hn] at h; simp at h
  | none =>
  rw [hn] at h
  cases hpn : parseNoises c.Noises with
  | mk noisesA r =>
  rw [hpn] at h
  cases r with
  | error e => simp at h
  | ok fns =>
  cases hre : buildRedirect c.Redirect with
  | error e => rw [hre] at h
  | ok dest => rfl

theorem parseNoises_fst_of_ok (l : List NoiseCfg) :
    ∀ fns, (parseNoises l).2 = .ok fns →
      (parseNoises l).1 = l.map (fun n => { n with Packet := trimSpace n.Packet }) := by
  induction l with
  | nil => intro fns h; rfl
  | cons n rest ih =>
    intro fns h
    unfold parseNoises at h ⊢
    cases hp : (ParseNoise n).2 with
    | error e => rw [hp] at h; simp at h
    | ok fn =>
    rw [hp] at h
    cases hr : parseNoises rest with
    | mk restA r =>
    rw [hr] at h
    cases r with
    | error e => simp at h
    | ok frest =>
      have ihr : restA = rest.map (fun n => { n with Packet := trimSpace n.Packet }) := by
        have hx := ih frest (by rw [hr])
        rw [hr] at hx
        exact hx
      simp [ParseNoise_fst, ihr]

theorem parseNoises_fst_id (l : List NoiseCfg) (h : ∀ n, n ∈ l → trimSpace n.Packet = n.Packet) :
    (parseNoises l).1 = l := by
  induction l with
  | nil => rfl
  | cons n rest ih =>
    have hn : (ParseNoise n).1 = n := by
      have hpn := h n (by simp)
      rw [ParseNoise_fst]
      obtain ⟨t, p, d, cnt⟩ := n
      simp only at hpn
      simp [hpn]
    unfold parseNoises
    cases hp : (ParseNoise n).2 with
    | error e => simp [hn]
    | ok fn =>
      cases hr : parseNoises rest with
      | mk restA r =>
      have hrest : restA = rest := by
        have hx := ih (fun m hm => h m (by simp [hm]))
        rw [hr] at hx
        exact hx
      cases r <;> simp [hn, hrest]

theorem parseNoises_fst_shape (l : List NoiseCfg) :
    ∃ k, k ≤ l.length ∧
      (parseNoises l).1 =
        (l.take k).map (fun n => { n with Packet := trimSpace n.Packet }) ++ l.drop k := by
  induction l with
  | nil => exact ⟨0, by simp, rfl⟩
  | cons n rest ih =>
    unfold parseNoises
    cases hp : (ParseNoise n).2 with
    | error e =>
      refine ⟨1, by simp, ?_⟩
      simp [ParseNoise_fst]
    | ok fn =>
      cases hr : parseNoises rest with
      | mk restA r =>
      obtain ⟨k, hk, hshape⟩ := ih
      rw [hr] at hshape
      have hshapeA : restA =
          (rest.take k).map (fun n => { n with Packet := trimSpace n.Packet }) ++
            rest.drop k := hshape
      cases r with
      | error e =>
        refine ⟨k + 1, by simp only [List.length_cons]; omega, ?_⟩
        simp [ParseNoise_fst, hshapeA]
      | ok frest =>
        refine ⟨k + 1, by simp only [List.length_cons]; omega, ?_⟩
        simp [ParseNoise_fst, hshapeA]

/-! ## Claim theorems -/

/-- Claim C1 (counterexample): the string `"1-2-3"` is neither of the shape
`"N"` nor `"N-M"` (it splits into three tokens and is not numeric as a
whole), yet a configuration using it for the fragment packets, length and
interval fields builds successfully — `Build` does not fail as the claim
states. -/
theorem build_three_token_range_ok_cex :
    (splitOn (("1-2-3").toList) '-').length = 3 ∧
    parseUint64 (("1-2-3").toList) = none ∧
    exOk (Build { baseCfg with
      Fragment := some (mkFrag (("1-2-3").toList) (("1-2-3").toList) (("1-2-3").toList)) }).2 = true := by
  decide

/-- Claim C1 (amended): for the fragment packets, length and interval fields,
a range string that splits on `"-"` into exactly two tokens fails with the
field's from-message when the first token is not numeric and with the
to-message when only the second is not numeric; a string splitting into any
other number of tokens is treated as the single-token form using only its
first token — it fails with the from-message when that token is not numeric
and otherwise yields `min = max = N` without error (so `"1-2-3"` parses as
`1`).  A packets-field parse error surfaces as the result of `Build`. -/
theorem range_malformed_amended (errA errB : String) (s : Str) :
    (∀ a b, splitOn s '-' = [a, b] →
      (parseUint64 a = none → parseMinMax s errA errB = .error errA) ∧
      (∀ n, parseUint64 a = some n → parseUint64 b = none →
        parseMinMax s errA errB = .error errB)) ∧
    (∀ l, splitOn s '-' = l → l.length ≠ 2 →
      (parseUint64 (l.headD []) = none → parseMinMax s errA errB = .error errA) ∧
      (∀ n, parseUint64 (l.headD []) = some n → parseMinMax s errA errB = .ok (n, n))) ∧
    (∀ c frag ds e, c.Fragment = some frag →
      parseDomainStrategy c.DomainStrategy = .ok ds →
      asciiLower frag.Packets ≠ ("tlshello").toList →
      asciiLower frag.Packets ≠ ("fakehost").toList →
      asciiLower frag.Packets ≠ [] →
      parseMinMax frag.Packets ("Invalid PacketsFrom") ("Invalid PacketsTo") = .error e →
      (Build c).2 = .error e) := by
  refine ⟨?_, ?_, ?_⟩
  · intro a b hab
    constructor
    · intro hna
      simp [parseMinMax, hab, hna]
    · intro n hsa hnb
      simp [parseMinMax, hab, hsa, hnb]
  · intro l hl hlen
    constructor
    · intro hna
      rcases l with _ | ⟨a, _ | ⟨b, _ | ⟨x, t2⟩⟩⟩
      · simp only [List.headD] at hna
        simp [parseMinMax, hl, hna]
      · simp only [List.headD] at hna
        simp [parseMinMax, hl, hna]
      · exact (hlen rfl).elim
      · simp only [List.headD] at hna
        simp [parseMinMax, hl, hna]
    · intro n hsa
      rcases l with _ | ⟨a, _ | ⟨b, _ | ⟨x, t2⟩⟩⟩
      · simp only [List.headD] at hsa
        simp [parseMinMax, hl, hsa]
      · simp only [List.headD] at hsa
        simp [parseMinMax, hl, hsa]
      · exact (hlen rfl).elim
      · simp only [List.headD] at hsa
        simp [parseMinMax, hl, hsa]
  · intro c frag ds e hcf hds h1 h2 h3 hpe
    have hbp : buildPackets frag.Packets = .error e := by
      unfold buildPackets
      rw [if_neg h1, if_neg h2, if_neg h3, hpe]
    have hbf : buildFragment frag = .error e := by
      unfold buildFragment
      rw [hbp]
    have hbo : buildFragmentOpt c.Fragment = .error e := by
      rw [hcf]
      simp [buildFragmentOpt, hbf]
    unfold Build
    rw [hds, hbo]

/-- Claim C1 (amended, witness): the malformed two-token string `"x-5"` fails
with the from-field message. -/
theorem range_malformed_amended_witness :
    parseMinMax (("x-5").toList) ("Invalid LengthMin") ("Invalid LengthMax") =
      .error ("Invalid LengthMin") :=
  ((range_malformed_amended ("Invalid LengthMin") ("Invalid LengthMax")
      (("x-5").toList)).1 (("x").toList) (("5").toList) (by decide)).1 (by decide)

/-- Claim C2 (counterexample): `Build` does not leave the input configuration
unchanged: `ParseNoise` overwrites each processed noises entry's `Packet`
field with its whitespace-trimmed value through the entry's pointer, so an
entry with packet `" a "` comes back as `"a"`. -/
theorem build_mutates_input_cex :
    (Build { baseCfg with Noises :=
        [{ Type' := ("str").toList, Packet := (" a ").toList, Delay := none, Count := none }] }).1 ≠
    { baseCfg with Noises :=
        [{ Type' := ("str").toList, Packet := (" a ").toList, Delay := none, Count := none }] } := by
  decide

/-- Claim C2 (amended): the only effect `Build` has on its input is through
the noises list — every other field is returned unchanged; after any run,
successful or failing, the noises list is a prefix of entries whose `Packet`
field has been replaced by its whitespace-trimmed value (the processed
entries, including a failing one) followed by the untouched remaining
suffix; on a successful build every entry is trimmed; an input whose noise
packets are already trimmed is returned exactly unchanged; and concretely, a
failing build with two untrimmed entries whose first entry has an invalid
type returns the first entry trimmed and the second untouched. -/
theorem build_mutation_amended (c : FreedomConfig) :
    ((Build c).1 = { c with Noises := (Build c).1.Noises }) ∧
    (∃ k, k ≤ c.Noises.length ∧
      (Build c).1.Noises =
        (c.Noises.take k).map (fun n => { n with Packet := trimSpace n.Packet }) ++
          c.Noises.drop k) ∧
    (∀ cfg, (Build c).2 = .ok cfg →
      (Build c).1.Noises = c.Noises.map (fun n => { n with Packet := trimSpace n.Packet })) ∧
    ((∀ n, n ∈ c.Noises → trimSpace n.Packet = n.Packet) → (Build c).1 = c) ∧
    (exOk (Build { baseCfg with Noises :=
        [{ Type' := ("zzz").toList, Packet := (" x ").toList, Delay := none, Count := none },
         { Type' := ("str").toList, Packet := (" y ").toList, Delay := none, Count := none }] }).2
        = false ∧
     (Build { baseCfg with Noises :=
        [{ Type' := ("zzz").toList, Packet := (" x ").toList, Delay := none, Count := none },
         { Type' := ("str").toList, Packet := (" y ").toList, Delay := none, Count := none }] }).1 =
     { baseCfg with Noises :=
        [{ Type' := ("zzz").toList, Packet := ("x").toList, Delay := none, Count := none },
         { Type' := ("str").toList, Packet := (" y ").toList, Delay := none, Count := none }] }) := by
  refine ⟨?_, ?_, ?_, ?_, by decide, by decide⟩
  · rcases Build_fst_cases c with h | h <;> rw [h]
  · rcases Build_fst_cases c with h | h
    · exact ⟨0, by simp, by rw [h]; simp⟩
    · obtain ⟨k, hk, hshape⟩ := parseNoises_fst_shape c.Noises
      exact ⟨k, hk, by rw [h]; exact hshape⟩
  · intro cfg hok
    rw [Build_fst_of_ok c cfg hok]
    exact parseNoises_fst_of_ok c.Noises cfg.Noises (Build_snd_ok c cfg hok).2.2.2.1
  · intro htrim
    rcases Build_fst_cases c with h | h
    · exact h
    · rw [h, parseNoises_fst_id c.Noises htrim]

/-- Claim C2 (amended, witness): a configuration with no noises entries is
returned unchanged by `Build`. -/
theorem build_mutation_amended_witness : (Build baseCfg).1 = baseCfg :=
  (build_mutation_amended baseCfg).2.2.2.1 (by simp [baseCfg])

/-- Claim C4: whenever the deprecated singular `noise` field is present,
`Build` fails, whatever the other fields are: every successful build path
passes the `c.Noise != nil` check, which returns the removed-feature
error. -/
theorem noise_singular_fails (c : FreedomConfig) (n : NoiseCfg) (h : c.Noise = some n) :
    exOk (Build c).2 = false := by
  cases hE : (Build c).2 with
  | error e => rfl
  | ok cfg =>
    exfalso
    have hnone := (Build_snd_ok c cfg hE).2.2.1
    rw [h] at hnone
    exact Option.noConfusion hnone

/-- Claim C4 (witness): a configuration whose only deviation from the
defaults is a singular noise entry fails to build. -/
theorem noise_singular_fails_witness :
    exOk (Build
      { baseCfg with
        Noise := some ({ Type' := ("str").toList, Packet := [], Delay := none, Count := none }) }).2
      = false :=
  noise_singular_fails
    ({ baseCfg with
       Noise := some ({ Type' := ("str").toList, Packet := [], Delay := none, Count := none }) })
    ({ Type' := ("str").toList, Packet := [], Delay := none, Count := none }) rfl

/-- Claim C3: when a fragment descriptor is present, a successful build maps
the packets keyword `"tlshello"` to bounds `(0, 1)`, `"fakehost"` to bounds
`(1, 1)` with the fake-host flag set, and the empty string to `(0, 0)`; and
for any non-keyword packets string whose parsed-and-swapped lower bound is
`0`, the build fails. -/
theorem fragment_packets_modes (c : FreedomConfig) (frag : FragmentCfg)
    (hcf : c.Fragment = some frag) :
    (∀ cfg ff, (Build c).2 = .ok cfg → cfg.Fragment = some ff →
      (asciiLower frag.Packets = ("tlshello").toList →
        ff.PacketsFrom = 0 ∧ ff.PacketsTo = 1) ∧
      (asciiLower frag.Packets = ("fakehost").toList →
        ff.PacketsFrom = 1 ∧ ff.PacketsTo = 1 ∧ ff.FakeHost = true) ∧
      (frag.Packets = [] → ff.PacketsFrom = 0 ∧ ff.PacketsTo = 0)) ∧
    (∀ mn mx, asciiLower frag.Packets ≠ ("tlshello").toList →
      asciiLower frag.Packets ≠ ("fakehost").toList →
      asciiLower frag.Packets ≠ [] →
      parseMinMax frag.Packets ("Invalid PacketsFrom") ("Invalid PacketsTo") = .ok (mn, mx) →
      mn = 0 → exOk (Build c).2 = false) := by
  constructor
  · intro cfg ff hok hff
    obtain ⟨-, hfo, -, -, -, -, -, -⟩ := Build_snd_ok c cfg hok
    rw [hcf] at hfo
    obtain ⟨ffA, hbf, hsome⟩ := buildFragmentOpt_ok_some frag cfg.Fragment hfo
    rw [hff] at hsome
    injection hsome with hfe
    subst hfe
    obtain ⟨hbp, -, -⟩ := buildFragment_ok_elim frag ff hbf
    refine ⟨?_, ?_, ?_⟩
    · intro hlow
      have h2 := (buildPackets_tlshello frag.Packets hlow).symm.trans hbp
      simp only [Except.ok.injEq, Prod.mk.injEq] at h2
      exact ⟨h2.1.symm, h2.2.1.symm⟩
    · intro hlow
      have h2 := (buildPackets_fakehost frag.Packets hlow).symm.trans hbp
      simp only [Except.ok.injEq, Prod.mk.injEq] at h2
      exact ⟨h2.1.symm, h2.2.1.symm, h2.2.2.symm⟩
    · intro hemp
      have hlow : asciiLower frag.Packets = [] := by rw [hemp]; rfl
      have h2 := (buildPackets_empty frag.Packets hlow).symm.trans hbp
      simp only [Except.ok.injEq, Prod.mk.injEq] at h2
      exact ⟨h2.1.symm, h2.2.1.symm⟩
  · intro mn mx h1 h2 h3 hpm h0
    cases hE : (Build c).2 with
    | error e => rfl
    | ok cfg =>
      exfalso
      obtain ⟨-, hfo, -, -, -, -, -, -⟩ := Build_snd_ok c cfg hE
      rw [hcf] at hfo
      obtain ⟨ff, hbf, -⟩ := buildFragmentOpt_ok_some frag cfg.Fragment hfo
      obtain ⟨hbp, -, -⟩ := buildFragment_ok_elim frag ff hbf
      obtain ⟨hpm2, hpf0, -⟩ :=
        buildPackets_default_ok frag.Packets ff.PacketsFrom ff.PacketsTo ff.FakeHost h1 h2 h3 hbp
      have heq := hpm.symm.trans hpm2
      simp only [Except.ok.injEq, Prod.mk.injEq] at heq
      exact hpf0 (by rw [← heq.1]; exact h0)

/-- Claim C3 (witness): the `tlshello` configuration builds and its fragment
plan has `PacketsFrom = 0` and `PacketsTo = 1`. -/
theorem fragment_packets_modes_witness : ffTLS.PacketsFrom = 0 ∧ ffTLS.PacketsTo = 1 :=
  ((fragment_packets_modes cfgTLS
      (mkFrag (("tlshello").toList) (("10").toList) (("0").toList)) rfl).1
    outTLS ffTLS (by rfl) rfl).1 (by decide)

/-- Claim C5: for all three fragment range fields (which share the one
range-parsing routine `parseMinMax`, instantiated only with different error
messages), a two-token string `"N-M"` with numeric tokens and `N > M` parses
to `min = M, max = N` (the bounds are swapped), and a single numeric token
`"N"` parses to `min = max = N`. -/
theorem range_swap_invariant (errA errB : String) (s : Str) :
    (∀ a b n m, splitOn s '-' = [a, b] → parseUint64 a = some n → parseUint64 b = some m →
      m < n → parseMinMax s errA errB = .ok (m, n)) ∧
    (∀ a n, splitOn s '-' = [a] → parseUint64 a = some n →
      parseMinMax s errA errB = .ok (n, n)) := by
  constructor
  · intro a b n m hab ha hb hmn
    simp [parseMinMax, hab, ha, hb, hmn]
  · intro a n ha hn
    simp [parseMinMax, ha, hn]

/-- Claim C5 (witness): `"50-10"` parses to `(10, 50)` and `"7"` to `(7, 7)`. -/
theorem range_swap_invariant_witness :
    parseMinMax (("50-10").toList) ("Invalid LengthMin") ("Invalid LengthMax") = .ok (10, 50) ∧
    parseMinMax (("7").toList) ("Invalid LengthMin") ("Invalid LengthMax") = .ok (7, 7) :=
  ⟨(range_swap_invariant ("Invalid LengthMin") ("Invalid LengthMax") (("50-10").toList)).1
      (("50").toList) (("10").toList) 50 10 (by decide) (by decide) (by decide) (by decide),
   (range_swap_invariant ("Invalid LengthMin") ("Invalid LengthMax") (("7").toList)).2
      (("7").toList) 7 (by decide) (by decide)⟩

/-- Claim C6: with a fragment descriptor present, `Build` fails when
`fragment.length` is empty and when the parsed-and-swapped length minimum is
`0` (for example `"0"`); and the concrete configuration with length
`"50-10"` builds successfully with `LengthMin = 10` and `LengthMax = 50`. -/
theorem fragment_length_validation (c : FreedomConfig) (frag : FragmentCfg)
    (hcf : c.Fragment = some frag) :
    (frag.Length = [] → exOk (Build c).2 = false) ∧
    (∀ mn mx, parseMinMax frag.Length ("Invalid LengthMin") ("Invalid LengthMax") = .ok (mn, mx) →
      mn = 0 → exOk (Build c).2 = false) ∧
    ((Build { baseCfg with Fragment := some (mkFrag [] (("50-10").toList) (("0").toList)) }).2 =
      .ok { DomainStrategy := .AS_IS,
            Fragment := some { PacketsFrom := 0, PacketsTo := 0, LengthMin := 10, LengthMax := 50,
                               IntervalMin := 0, IntervalMax := 0, FakeHost := false,
                               Host1Header := ("Host : ").toList,
                               Host1Domain := ("cloudflare.com").toList,
                               Host2Header := ("Host:   ").toList,
                               Host2Domain := ("cloudflare.com").toList },
            Noises := [], NoiseKeepAlive := 0, UserLevel := 0,
            DestinationOverride := none, ProxyProtocol := 0 }) := by
  refine ⟨?_, ?_, by rfl⟩
  · intro hlen
    cases hE : (Build c).2 with
    | error e => rfl
    | ok cfg =>
      exfalso
      obtain ⟨-, hfo, -, -, -, -, -, -⟩ := Build_snd_ok c cfg hE
      rw [hcf] at hfo
      obtain ⟨ff, hbf, -⟩ := buildFragmentOpt_ok_some frag cfg.Fragment hfo
      obtain ⟨-, hbl, -⟩ := buildFragment_ok_elim frag ff hbf
      obtain ⟨hne, -, -⟩ := buildLength_ok_elim frag.Length ff.LengthMin ff.LengthMax hbl
      exact hne hlen
  · intro mn mx hpm h0
    cases hE : (Build c).2 with
    | error e => rfl
    | ok cfg =>
      exfalso
      obtain ⟨-, hfo, -, -, -, -, -, -⟩ := Build_snd_ok c cfg hE
      rw [hcf] at hfo
      obtain ⟨ff, hbf, -⟩ := buildFragmentOpt_ok_some frag cfg.Fragment hfo
      obtain ⟨-, hbl, -⟩ := buildFragment_ok_elim frag ff hbf
      obtain ⟨-, hpm2, h0A⟩ := buildLength_ok_elim frag.Length ff.LengthMin ff.LengthMax hbl
      have heq := hpm.symm.trans hpm2
      simp only [Except.ok.injEq, Prod.mk.injEq] at heq
      exact h0A (by rw [← heq.1]; exact h0)

/-- Claim C6 (witness): an empty length string makes the build fail. -/
theorem fragment_length_validation_witness :
    exOk (Build { baseCfg with Fragment := some (mkFrag [] [] (("0").toList)) }).2 = false :=
  (fragment_length_validation
    { baseCfg with Fragment := some (mkFrag [] [] (("0").toList)) }
    (mkFrag [] [] (("0").toList)) rfl).1 rfl

/-- Claim C7: a successful build copies `proxyProtocol` through exactly when
it lies in `{1, 2}` and otherwise leaves the plan's field at `0`; in
particular the out-of-range value `5` does not cause an error — the
configuration builds with the field `0`. -/
theorem proxy_protocol_clamp :
    (∀ c cfg, (Build c).2 = .ok cfg →
      cfg.ProxyProtocol =
        (if 0 < c.ProxyProtocol ∧ c.ProxyProtocol ≤ 2 then c.ProxyProtocol else 0)) ∧
    ((Build { baseCfg with ProxyProtocol := 5 }).2 =
      .ok { DomainStrategy := .AS_IS, Fragment := none, Noises := [], NoiseKeepAlive := 0,
            UserLevel := 0, DestinationOverride := none, ProxyProtocol := 0 }) := by
  constructor
  · intro c cfg h
    exact (Build_snd_ok c cfg h).2.2.2.2.2.2.2
  · rfl

/-- Claim C7 (witness): the in-range value `2` is copied through. -/
theorem proxy_protocol_clamp_witness :
    ({ DomainStrategy := DomainStrategyE.AS_IS, Fragment := none, Noises := [],
       NoiseKeepAlive := 0, UserLevel := 0, DestinationOverride := none,
       ProxyProtocol := 2 } : FConfig).ProxyProtocol =
      (if 0 < 2 ∧ (2 : Nat) ≤ 2 then 2 else 0) :=
  proxy_protocol_clamp.1 { baseCfg with ProxyProtocol := 2 }
    ({ DomainStrategy := DomainStrategyE.AS_IS, Fragment := none, Noises := [],
       NoiseKeepAlive := 0, UserLevel := 0, DestinationOverride := none,
       ProxyProtocol := 2 }) (by rfl)

/-- Claim C8: the base64 noise decoder rewrites the standard alphabet to the
URL-safe one (`+` to `-`, `/` to `_`, `=` deleted) before raw URL-safe
decoding, so both alphabets are accepted: `"SGVsbG8"` and the padded
standard form `"SGVsbG8="` both decode to the bytes of `"Hello"`
(`[72, 101, 108, 108, 111]`), the replacer maps `"SGVsbG8="` to
`"SGVsbG8"` and `"++//=="` to `"--__"`, and the standard-alphabet packet
`"++++"` decodes exactly like its URL-safe form `"----"`. -/
theorem base64_decoder_alphabets :
    (ParseNoise { Type' := ("base64").toList, Packet := ("SGVsbG8").toList,
                  Delay := none, Count := none }).2 =
      .ok { LengthMin := 0, LengthMax := 0, Packet := [72, 101, 108, 108, 111],
            DelayMin := 0, DelayMax := 0, CountMin := 0, CountMax := 0 } ∧
    (ParseNoise { Type' := ("base64").toList, Packet := ("SGVsbG8=").toList,
                  Delay := none, Count := none }).2 =
      .ok { LengthMin := 0, LengthMax := 0, Packet := [72, 101, 108, 108, 111],
            DelayMin := 0, DelayMax := 0, CountMin := 0, CountMax := 0 } ∧
    b64Replace (("SGVsbG8=").toList) = ("SGVsbG8").toList ∧
    b64Replace (("++//==").toList) = ("--__").toList ∧
    (ParseNoise { Type' := ("base64").toList, Packet := ("++++").toList,
                  Delay := none, Count := none }).2 =
      (ParseNoise { Type' := ("base64").toList, Packet := ("----").toList,
                    Delay := none, Count := none }).2 :=
  ⟨rfl, rfl, rfl, rfl, rfl⟩

/-- Claim C9: a non-empty redirect is split into host and port:
`"example.com:443"` yields an override with host `"example.com"` and port
`443`; `":443"` yields a port-only override; and `"bad"`, which has no
colon, fails with an error embedding the offending string. -/
theorem redirect_split :
    ((Build { baseCfg with Redirect := ("example.com:443").toList }).2 =
      .ok { DomainStrategy := .AS_IS, Fragment := none, Noises := [], NoiseKeepAlive := 0,
            UserLevel := 0,
            DestinationOverride :=
              some { Server := { Port := 443, Address := some (("example.com").toList) } },
            ProxyProtocol := 0 }) ∧
    ((Build { baseCfg with Redirect := (":443").toList }).2 =
      .ok { DomainStrategy := .AS_IS, Fragment := none, Noises := [], NoiseKeepAlive := 0,
            UserLevel := 0,
            DestinationOverride := some { Server := { Port := 443, Address := none } },
            ProxyProtocol := 0 }) ∧
    ((Build { baseCfg with Redirect := ("bad").toList }).2 =
      .error ("invalid redirect address: bad: address bad: missing port in address")) :=
  ⟨rfl, rfl, rfl⟩

/-- Claim C10: for every noises entry whose `Delay` (respectively `Count`)
sub-range is absent, a successfully decoded entry has
`DelayMin = DelayMax = 0` (respectively `CountMin = CountMax = 0`): the
decoder leaves the proto's zero values in place rather than substituting the
documented `[1, 1]` count default. -/
theorem noise_delay_count_zero (n : NoiseCfg) (r : FNoise) (h : (ParseNoise n).2 = .ok r) :
    (n.Delay = none → r.DelayMin = 0 ∧ r.DelayMax = 0) ∧
    (n.Count = none → r.CountMin = 0 ∧ r.CountMax = 0) := by
  unfold ParseNoise at h
  simp only [] at h
  split at h
  · split at h
    · simp at h
    · split at h
      · simp at h
      · simp only [Except.ok.injEq] at h
        subst h
        exact ⟨fun hd => by simp [hd], fun hc => by simp [hc]⟩
  · split at h
    · simp only [Except.ok.injEq] at h
      subst h
      exact ⟨fun hd => by simp [hd], fun hc => by simp [hc]⟩
    · split at h
      · split at h
        · simp at h
        · simp only [Except.ok.injEq] at h
          subst h
          exact ⟨fun hd => by simp [hd], fun hc => by simp [hc]⟩
      · split at h
        · split at h
          · simp at h
          · simp only [Except.ok.injEq] at h
            subst h
            exact ⟨fun hd => by simp [hd], fun hc => by simp [hc]⟩
        · simp at h

/-- Claim C10 (witness): a `str` entry with both sub-ranges absent decodes
with all four delay/count bounds `0`. -/
theorem noise_delay_count_zero_witness :
    (({ LengthMin := 0, LengthMax := 0, Packet := [97, 98], DelayMin := 0, DelayMax := 0,
        CountMin := 0, CountMax := 0 } : FNoise).DelayMin = 0 ∧
     ({ LengthMin := 0, LengthMax := 0, Packet := [97, 98], DelayMin := 0, DelayMax := 0,
        CountMin := 0, CountMax := 0 } : FNoise).DelayMax = 0) ∧
    (({ LengthMin := 0, LengthMax := 0, Packet := [97, 98], DelayMin := 0, DelayMax := 0,
        CountMin := 0, CountMax := 0 } : FNoise).CountMin = 0 ∧
     ({ LengthMin := 0, LengthMax := 0, Packet := [97, 98], DelayMin := 0, DelayMax := 0,
        CountMin := 0, CountMax := 0 } : FNoise).CountMax = 0) :=
  have h := noise_delay_count_zero
    ({ Type' := ("str").toList, Packet := ("ab").toList, Delay := none, Count := none })
    ({ LengthMin := 0, LengthMax := 0, Packet := [97, 98], DelayMin := 0, DelayMax := 0,
       CountMin := 0, CountMax := 0 }) (by rfl)
  ⟨h.1 rfl, h.2 rfl⟩
